import Mathlib

/-!
Shallow embedding of the chat client component in
src/YewChat/src/components/chat.rs.

The component state (struct Chat), the wire envelope (struct
WebSocketMessage with its serde attributes), the nested chat payload
(struct MessageData), the reducer (Chat::update), the bootstrap
(Chat::create) and the view projection (the ".gif" suffix test in
Chat::view) are translated into Lean definitions below.

The serde_json library sits at the wire boundary: text frames are parsed
to a JSON value, and the derived Deserialize/Serialize implementations
map JSON values to and from the Rust structs.  We model JSON values as
an inductive type, the textual parse as a fuel-indexed recursive parser
(restricted to integer numerals; the protocol carries no numbers), and
the derived (de)serializers field by field, following serde semantics:
field names renamed per the serde attributes, Option fields accepting
null or a missing field, duplicate known fields rejected, unknown
fields ignored, None serialized as null.

A Rust panic (an .unwrap() of a failed decode) is modelled by the value
none of an Option result type: none marks an aborted, crashing update,
while some r is a normal return.
-/

namespace YewChat

/-- Model of a JSON value, the intermediate form used by serde_json at
the wire boundary (spec section 6). -/
inductive Json where
  | null : Json
  | bool : Bool → Json
  | num : Int → Json
  | str : String → Json
  | arr : List Json → Json
  | obj : List (String × Json) → Json

/-- JSON insignificant whitespace. -/
def isJsonWs (c : Char) : Bool :=
  c = ' ' || c = '\n' || c = '\t' || c = '\r'

/-- Drop leading JSON whitespace. -/
def skipWs : List Char → List Char
  | [] => []
  | c :: cs => if isJsonWs c then skipWs cs else c :: cs

/-- Value of a hexadecimal digit, for \u escapes. -/
def hexDigit (c : Char) : Option Nat :=
  if '0' ≤ c ∧ c ≤ '9' then some (c.toNat - 48)
  else if 'a' ≤ c ∧ c ≤ 'f' then some (c.toNat - 87)
  else if 'A' ≤ c ∧ c ≤ 'F' then some (c.toNat - 55)
  else none

/-- Parse the body of a JSON string literal after the opening quote,
with an accumulator of the characters read so far (reversed). -/
def parseStringBody : List Char → List Char → Option (String × List Char)
  | _, [] => none
  | acc, '"' :: rest => some (String.mk acc.reverse, rest)
  | acc, '\\' :: rest =>
    match rest with
    | '"' :: r => parseStringBody ('"' :: acc) r
    | '\\' :: r => parseStringBody ('\\' :: acc) r
    | '/' :: r => parseStringBody ('/' :: acc) r
    | 'b' :: r => parseStringBody ('\x08' :: acc) r
    | 'f' :: r => parseStringBody ('\x0c' :: acc) r
    | 'n' :: r => parseStringBody ('\n' :: acc) r
    | 'r' :: r => parseStringBody ('\r' :: acc) r
    | 't' :: r => parseStringBody ('\t' :: acc) r
    | 'u' :: a :: b :: c :: d :: r =>
      match hexDigit a, hexDigit b, hexDigit c, hexDigit d with
      | some ha, some hb, some hc, some hd =>
        parseStringBody (Char.ofNat (((ha * 16 + hb) * 16 + hc) * 16 + hd) :: acc) r
      | _, _, _, _ => none
    | _ => none
  | acc, c :: rest =>
    if c.toNat < 32 then none else parseStringBody (c :: acc) rest

/-- Decimal digit test. -/
def isDigit (c : Char) : Bool := '0' ≤ c && c ≤ '9'

/-- Consume a run of decimal digits into an accumulator. -/
def takeDigits : List Char → Nat → Nat × List Char
  | [], acc => (acc, [])
  | c :: rest, acc =>
    if isDigit c then takeDigits rest (acc * 10 + (c.toNat - 48)) else (acc, c :: rest)

/-- Parse a JSON numeral (model restricted to optionally signed integer
literals; the chat protocol carries no numbers at all). -/
def parseNumber : List Char → Option (Json × List Char)
  | '-' :: c :: rest =>
    if isDigit c then
      match takeDigits rest (c.toNat - 48) with
      | (n, r) => some (Json.num (-(Int.ofNat n)), r)
    else none
  | c :: rest =>
    if isDigit c then
      match takeDigits rest (c.toNat - 48) with
      | (n, r) => some (Json.num (Int.ofNat n), r)
    else none
  | [] => none

mutual

/-- Parse one JSON value, returning it with the unread remainder. -/
def parseVal : Nat → List Char → Option (Json × List Char)
  | 0, _ => none
  | Nat.succ fuel, cs =>
    match skipWs cs with
    | 'n' :: 'u' :: 'l' :: 'l' :: rest => some (Json.null, rest)
    | 't' :: 'r' :: 'u' :: 'e' :: rest => some (Json.bool true, rest)
    | 'f' :: 'a' :: 'l' :: 's' :: 'e' :: rest => some (Json.bool false, rest)
    | '"' :: rest =>
      match parseStringBody [] rest with
      | some (s, r) => some (Json.str s, r)
      | none => none
    | '[' :: rest =>
      match skipWs rest with
      | ']' :: r => some (Json.arr [], r)
      | cs2 =>
        match parseItems fuel cs2 with
        | some (vs, r) => some (Json.arr vs, r)
        | none => none
    | '\x7b' :: rest =>
      match skipWs rest with
      | '\x7d' :: r => some (Json.obj [], r)
      | cs2 =>
        match parseMembers fuel cs2 with
        | some (ms, r) => some (Json.obj ms, r)
        | none => none
    | cs2 => parseNumber cs2

/-- Parse the comma-separated items of a nonempty JSON array, up to and
including the closing bracket. -/
def parseItems : Nat → List Char → Option (List Json × List Char)
  | 0, _ => none
  | Nat.succ fuel, cs =>
    match parseVal fuel cs with
    | none => none
    | some (v, rest) =>
      match skipWs rest with
      | ',' :: r =>
        match parseItems fuel r with
        | some (vs, r2) => some (v :: vs, r2)
        | none => none
      | ']' :: r => some ([v], r)
      | _ => none

/-- Parse the members of a nonempty JSON object, up to and including
the closing brace. -/
def parseMembers : Nat → List Char → Option (List (String × Json) × List Char)
  | 0, _ => none
  | Nat.succ fuel, cs =>
    match skipWs cs with
    | '"' :: rest =>
      match parseStringBody [] rest with
      | none => none
      | some (k, r1) =>
        match skipWs r1 with
        | ':' :: r2 =>
          match parseVal fuel r2 with
          | none => none
          | some (v, r3) =>
            match skipWs r3 with
            | ',' :: r4 =>
              match parseMembers fuel r4 with
              | some (ms, r5) => some ((k, v) :: ms, r5)
              | none => none
            | '\x7d' :: r4 => some ([(k, v)], r4)
            | _ => none
        | _ => none
    | _ => none

end

/-- Parse a full text frame as one JSON value (model of the parsing
layer of serde_json::from_str).  The fuel bound 2 * length + 4 dominates
the parser call depth, every two calls consuming at least one
character. -/
def Json.parse (s : String) : Option Json :=
  match parseVal (2 * s.length + 4) s.data with
  | some (j, rest) =>
    match skipWs rest with
    | [] => some j
    | _ => none
  | none => none

/-- Lowercase hexadecimal digit character for a value below 16, as
emitted by the serde_json string escaper. -/
def hexChar (n : Nat) : Char :=
  if n < 10 then Char.ofNat (48 + n) else Char.ofNat (87 + n)

/-- Model of the serde_json string escaper for one character: quote and
backslash are escaped, the control characters 8 9 10 12 13 get their
short escapes, every other control character becomes \u00xx with
lowercase hex digits, and all remaining characters are emitted
literally. -/
def escapeChar (c : Char) : List Char :=
  if c = '"' then ['\\', '"']
  else if c = '\\' then ['\\', '\\']
  else if c = '\x08' then ['\\', 'b']
  else if c = '\x09' then ['\\', 't']
  else if c = '\x0a' then ['\\', 'n']
  else if c = '\x0c' then ['\\', 'f']
  else if c = '\x0d' then ['\\', 'r']
  else if c.toNat < 32 then ['\\', 'u', '0', '0', hexChar (c.toNat / 16), hexChar (c.toNat % 16)]
  else [c]

/-- Escape a character sequence and close the string literal: the base
case emits the terminating quote. -/
def escapeList : List Char → List Char
  | [] => ['"']
  | c :: cs => escapeChar c ++ escapeList cs

/-- Render a JSON string literal: opening quote, escaped body, closing
quote (the closing quote comes from the base case of escapeList). -/
def renderString (s : String) : List Char := '"' :: escapeList s.data

mutual

/-- Model of the serde_json serializer to text (compact form, no
whitespace): renders one JSON value as a character sequence. -/
def renderJson : Json → List Char
  | Json.null => ['n', 'u', 'l', 'l']
  | Json.bool true => ['t', 'r', 'u', 'e']
  | Json.bool false => ['f', 'a', 'l', 's', 'e']
  | Json.num i => (toString i).data
  | Json.str s => renderString s
  | Json.arr [] => ['[', ']']
  | Json.arr (x :: xs) => '[' :: (renderJson x ++ renderItems xs ++ [']'])
  | Json.obj [] => ['\x7b', '\x7d']
  | Json.obj ((k, v) :: ms) =>
    '\x7b' :: (renderString k ++ ':' :: (renderJson v ++ renderMembers ms ++ ['\x7d']))

/-- Render the remaining items of an array, each preceded by a comma. -/
def renderItems : List Json → List Char
  | [] => []
  | x :: xs => ',' :: (renderJson x ++ renderItems xs)

/-- Render the remaining members of an object, each preceded by a
comma. -/
def renderMembers : List (String × Json) → List Char
  | [] => []
  | (k, v) :: ms => ',' :: (renderString k ++ ':' :: (renderJson v ++ renderMembers ms))

end

/-- Mirror of enum MsgTypes, with the serde attribute
rename_all = "lowercase": on the wire each variant is the JSON string
"users", "register" or "message". -/
inductive MsgTypes where
  | Users : MsgTypes
  | Register : MsgTypes
  | Message : MsgTypes
deriving DecidableEq

/-- Mirror of struct WebSocketMessage, with the serde attribute
rename_all = "camelCase": the JSON keys are messageType, dataArray and
data. -/
structure WebSocketMessage where
  message_type : MsgTypes
  data_array : Option (List String)
  data : Option String
deriving DecidableEq

/-- Mirror of struct MessageData.  The Rust field from is spelled from_
here because from is a Lean keyword; its JSON key is still "from". -/
structure MessageData where
  from_ : String
  message : String
deriving DecidableEq

/-- Mirror of struct UserProfile (fields name and avatar). -/
structure UserProfile where
  name : String
  avatar : String
deriving DecidableEq

/-- State-carrying fields of struct Chat.  The remaining fields
(chat_input, wss, _producer) are handles to the input element, the
transport channel and the event bus; they are modelled as explicit
arguments and effect lists of create and update below. -/
structure Chat where
  users : List UserProfile
  messages : List MessageData
deriving DecidableEq

/-- Derived serde Deserialize for MsgTypes from a JSON string tag. -/
def MsgTypes.fromJson : Json → Option MsgTypes
  | Json.str "users" => some MsgTypes.Users
  | Json.str "register" => some MsgTypes.Register
  | Json.str "message" => some MsgTypes.Message
  | _ => none

/-- Derived serde Serialize for MsgTypes. -/
def MsgTypes.toJson : MsgTypes → Json
  | MsgTypes.Users => Json.str "users"
  | MsgTypes.Register => Json.str "register"
  | MsgTypes.Message => Json.str "message"

/-- Decode a JSON array of strings (element decode for Vec<String>). -/
def decodeStringList : List Json → Option (List String)
  | [] => some []
  | Json.str s :: rest => (decodeStringList rest).map (fun xs => s :: xs)
  | _ => none

/-- Serde decoding of an Option<Vec<String>> field value: null maps to
None, an array of strings to Some, anything else is an error. -/
def decodeOptStrArr : Json → Option (Option (List String))
  | Json.null => some none
  | Json.arr xs => (decodeStringList xs).map (fun v => some v)
  | _ => none

/-- Serde decoding of an Option<String> field value. -/
def decodeOptStr : Json → Option (Option String)
  | Json.null => some none
  | Json.str s => some (some s)
  | _ => none

/-- Field loop of the derived Deserialize for WebSocketMessage: walk the
object members once, filling each field slot at most once (a duplicate
known field is an error), ignoring unknown keys; at the end messageType
is required and the two Option fields default to None when missing. -/
def wsFields : List (String × Json) → Option MsgTypes → Option (Option (List String)) →
    Option (Option String) → Option WebSocketMessage
  | [], mt, da, d =>
    match mt with
    | some t => some ⟨t, da.getD none, d.getD none⟩
    | none => none
  | (k, v) :: rest, mt, da, d =>
    if k = "messageType" then
      match mt, MsgTypes.fromJson v with
      | none, some t => wsFields rest (some t) da d
      | _, _ => none
    else if k = "dataArray" then
      match da, decodeOptStrArr v with
      | none, some x => wsFields rest mt (some x) d
      | _, _ => none
    else if k = "data" then
      match d, decodeOptStr v with
      | none, some x => wsFields rest mt da (some x)
      | _, _ => none
    else wsFields rest mt da d

/-- Derived serde Deserialize for WebSocketMessage. -/
def WebSocketMessage.fromJson : Json → Option WebSocketMessage
  | Json.obj fields => wsFields fields none none none
  | _ => none

/-- Serde serialization of the Option<Vec<String>> field value: None as
null, Some as the array of strings. -/
def jsonOfDataArray : Option (List String) → Json
  | none => Json.null
  | some xs => Json.arr (xs.map Json.str)

/-- Serde serialization of the Option<String> field value. -/
def jsonOfData : Option String → Json
  | none => Json.null
  | some s => Json.str s

/-- Derived serde Serialize for WebSocketMessage: fields in declaration
order, None rendered as null. -/
def WebSocketMessage.toJson (m : WebSocketMessage) : Json :=
  Json.obj
    [("messageType", MsgTypes.toJson m.message_type),
     ("dataArray", jsonOfDataArray m.data_array),
     ("data", jsonOfData m.data)]

/-- Model of serde_json::to_string on a WebSocketMessage, as called in
Chat::create and in the SubmitMessage arm of Chat::update: the derived
Serialize produces the JSON value, which the serializer renders as
compact text. -/
def WebSocketMessage.encode (m : WebSocketMessage) : String :=
  String.mk (renderJson (WebSocketMessage.toJson m))

/-- Field loop of the derived Deserialize for MessageData: both fields
are plain Strings, hence required and non-null. -/
def mdFields : List (String × Json) → Option String → Option String → Option MessageData
  | [], f, m =>
    match f, m with
    | some fv, some mv => some ⟨fv, mv⟩
    | _, _ => none
  | (k, v) :: rest, f, m =>
    if k = "from" then
      match f, v with
      | none, Json.str s => mdFields rest (some s) m
      | _, _ => none
    else if k = "message" then
      match m, v with
      | none, Json.str s => mdFields rest f (some s)
      | _, _ => none
    else mdFields rest f m

/-- Derived serde Deserialize for MessageData. -/
def MessageData.fromJson : Json → Option MessageData
  | Json.obj fields => mdFields fields none none
  | _ => none

/-- Model of serde_json::from_str::<WebSocketMessage> on a text frame,
as called at the top of the Msg::HandleMsg arm of Chat::update. -/
def decodeFrame (s : String) : Option WebSocketMessage :=
  (Json.parse s).bind WebSocketMessage.fromJson

/-- Model of serde_json::from_str::<MessageData>, the nested second
decode applied to the data string of a message envelope. -/
def decodeMessageData (s : String) : Option MessageData :=
  (Json.parse s).bind MessageData.fromJson

/-- The avatar URL built by the format! call in the Users arm of
Chat::update; this is the pure function the spec names
deterministicAvatarUrl. -/
def deterministicAvatarUrl (u : String) : String :=
  "https://avatars.dicebear.com/api/adventurer-neutral/" ++ u ++ ".svg"

/-- Mirror of enum Msg, the component message type. -/
inductive Msg where
  | HandleMsg : String → Msg
  | SubmitMessage : Msg

/-- Observable outcome of one non-panicking Chat::update invocation:
the new state, the bool returned to yew (should-rerender), the
envelopes whose encodings were handed to wss.tx.try_send, and whether
the input element was cleared. -/
structure UpdateResult where
  state : Chat
  shouldRender : Bool
  sent : List WebSocketMessage
  inputCleared : Bool
deriving DecidableEq

/-- The match on msg.message_type inside the Msg::HandleMsg arm of
Chat::update, acting on an already decoded envelope.  none models a
panic: the Message arm unwraps msg.data and then unwraps the nested
serde_json decode of it.  The wildcard arm (reached for Register)
returns false with the state untouched. -/
def handleEnvelope (st : Chat) (msg : WebSocketMessage) : Option (Chat × Bool) :=
  match msg.message_type with
  | MsgTypes.Users =>
    let users_from_message := msg.data_array.getD []
    some ({ st with
            users := users_from_message.map
              (fun u => ⟨u, deterministicAvatarUrl u⟩) }, true)
  | MsgTypes.Message =>
    match msg.data with
    | none => none
    | some d =>
      match decodeMessageData d with
      | none => none
      | some message_data =>
        some ({ st with messages := st.messages ++ [message_data] }, true)
  | MsgTypes.Register => some (st, false)

/-- Model of Chat::update.  input is the current value of the
chat_input element when it is mounted (None when the NodeRef cast
fails).  none models a panic: the HandleMsg arm unwraps the result of
serde_json::from_str on the raw frame.  The SubmitMessage arm builds a
message envelope from the raw input value, attempts exactly one send,
clears the input whether or not the send succeeded, and returns false;
the try_send error case only logs. -/
def update (st : Chat) (input : Option String) (msg : Msg) : Option UpdateResult :=
  match msg with
  | Msg.HandleMsg s =>
    match decodeFrame s with
    | none => none
    | some ws =>
      match handleEnvelope st ws with
      | none => none
      | some (st2, render) => some ⟨st2, render, [], false⟩
  | Msg.SubmitMessage =>
    match input with
    | none => some ⟨st, false, [], false⟩
    | some v => some ⟨st, false, [⟨MsgTypes.Message, none, some v⟩], true⟩

/-- Model of Chat::create.  sendOk is whether wss.tx.try_send accepted
the frame; the source only logs on success (if let Ok), so the
constructed component is the same either way.  The second component
lists the envelopes whose encodings were handed to try_send: exactly
the one register envelope carrying the username. -/
def create (username : String) (sendOk : Bool) : Chat × List WebSocketMessage :=
  let message : WebSocketMessage := ⟨MsgTypes.Register, none, some username⟩
  ((⟨[], []⟩ : Chat), [message])

/-- The m.message.ends_with(".gif") test in Chat::view, deciding image
rendering; this is the function the spec names isImagePayload.  A Rust
str pattern test ends_with is a suffix match on the character
sequence. -/
def isImagePayload (m : MessageData) : Bool :=
  List.isSuffixOf ".gif".data m.message.data

/-- Well-formedness of an envelope as stated in the round-trip claim:
the list payload is present exactly for Users, the single payload
exactly for Register and Message. -/
def wellFormed (m : WebSocketMessage) : Bool :=
  match m.message_type with
  | MsgTypes.Users => m.data_array.isSome && m.data.isNone
  | MsgTypes.Register => m.data_array.isNone && m.data.isSome
  | MsgTypes.Message => m.data_array.isNone && m.data.isSome

/-- Helper: decoding an array of string values recovers the list. -/
theorem decodeStringList_map_str (xs : List String) :
    decodeStringList (xs.map Json.str) = some xs := by
  induction xs with
  | nil => rfl
  | cons x xs ih => simp [decodeStringList, ih]

/-- Helper: the derived serde decoder inverts the derived serde encoder
on every envelope value. -/
theorem fromJson_toJson (m : WebSocketMessage) :
    WebSocketMessage.fromJson (WebSocketMessage.toJson m) = some m := by
  obtain ⟨mt, da, d⟩ := m
  cases mt <;> cases da <;> cases d <;>
    simp [WebSocketMessage.toJson, WebSocketMessage.fromJson, wsFields,
      MsgTypes.toJson, MsgTypes.fromJson, decodeOptStrArr, decodeOptStr,
      jsonOfDataArray, jsonOfData, decodeStringList_map_str]

theorem hexDigit_hexChar (n : Nat) (h : n < 16) : hexDigit (hexChar n) = some n := by
  interval_cases n <;> decide

set_option maxHeartbeats 2000000 in
theorem parseStringBody_escapeList (cs : List Char) : ∀ (acc rest : List Char),
    parseStringBody acc (escapeList cs ++ rest) = some (String.mk (acc.reverse ++ cs), rest) := by
  induction cs with
  | nil =>
    intro acc rest
    simp [escapeList, parseStringBody]
  | cons c cs ih =>
    intro acc rest
    by_cases h1 : c = '"'
    · subst h1
      simp [escapeList, escapeChar, parseStringBody, ih]
    · by_cases h2 : c = '\\'
      · subst h2
        simp [escapeList, escapeChar, parseStringBody, ih]
      · by_cases h3 : c = '\x08'
        · subst h3
          simp [escapeList, escapeChar, parseStringBody, ih]
        · by_cases h4 : c = '\x09'
          · subst h4
            simp [escapeList, escapeChar, parseStringBody, ih]
          · by_cases h5 : c = '\x0a'
            · subst h5
              simp [escapeList, escapeChar, parseStringBody, ih]
            · by_cases h6 : c = '\x0c'
              · subst h6
                simp [escapeList, escapeChar, parseStringBody, ih]
              · by_cases h7 : c = '\x0d'
                · subst h7
                  simp [escapeList, escapeChar, parseStringBody, ih]
                · by_cases h8 : c.toNat < 32
                  · have hd0 : hexDigit '0' = some 0 := by decide
                    have hd1 : hexDigit (hexChar (c.toNat / 16)) = some (c.toNat / 16) :=
                      hexDigit_hexChar _ (by omega)
                    have hd2 : hexDigit (hexChar (c.toNat % 16)) = some (c.toNat % 16) :=
                      hexDigit_hexChar _ (by omega)
                    have harith : c.toNat / 16 * 16 + c.toNat % 16 = c.toNat := by
                      omega
                    simp [escapeList, escapeChar, h1, h2, h3, h4, h5, h6, h7, h8,
                      parseStringBody, hd0, hd1, hd2, harith, ih]
                  · simp [escapeList, escapeChar, h1, h2, h3, h4, h5, h6, h7, h8,
                      parseStringBody, ih]
theorem parseVal_render_str (fuel : Nat) (h : 1 ≤ fuel) (s : String) (rest : List Char) :
    parseVal fuel (renderString s ++ rest) = some (Json.str s, rest) := by
  obtain ⟨f, rfl⟩ : ∃ f, fuel = Nat.succ f := ⟨fuel - 1, by omega⟩
  simp [renderString, parseVal, skipWs, isJsonWs, parseStringBody_escapeList]

theorem parseVal_render_null (fuel : Nat) (h : 1 ≤ fuel) (rest : List Char) :
    parseVal fuel (renderJson Json.null ++ rest) = some (Json.null, rest) := by
  obtain ⟨f, rfl⟩ : ∃ f, fuel = Nat.succ f := ⟨fuel - 1, by omega⟩
  simp [renderJson, parseVal, skipWs, isJsonWs]

theorem stringMk_data (s : String) : String.mk s.data = s := rfl

theorem parseItems_step (f : Nat) (v : Json) (Y cs : List Char) (vs : List Json)
    (rest : List Char) (hval : parseVal f Y = some (v, ',' :: cs))
    (hrec : parseItems f cs = some (vs, rest)) :
    parseItems (Nat.succ f) Y = some (v :: vs, rest) := by
  simp [parseItems, hval, skipWs, isJsonWs, hrec]

theorem parseItems_single (f : Nat) (v : Json) (Y rest : List Char)
    (hval : parseVal f Y = some (v, ']' :: rest)) :
    parseItems (Nat.succ f) Y = some ([v], rest) := by
  simp [parseItems, hval, skipWs, isJsonWs]

theorem parseItems_render (xs : List String) : ∀ (fuel : Nat) (x : String) (rest : List Char),
    2 * xs.length + 2 ≤ fuel →
    parseItems fuel (renderString x ++ (renderItems (xs.map Json.str) ++ ']' :: rest)) =
      some ((x :: xs).map Json.str, rest) := by
  induction xs with
  | nil =>
    intro fuel x rest h
    obtain ⟨f1, rfl⟩ : ∃ f1, fuel = Nat.succ f1 := ⟨fuel - 1, by omega⟩
    exact parseItems_single f1 (Json.str x) _ rest (parseVal_render_str f1 (by omega) x _)
  | cons y ys ih =>
    intro fuel x rest h
    obtain ⟨f1, rfl⟩ : ∃ f1, fuel = Nat.succ f1 := ⟨fuel - 1, by omega⟩
    have htext : renderString x ++ (renderItems (List.map Json.str (y :: ys)) ++ ']' :: rest) =
        renderString x ++
          (',' :: (renderString y ++ (renderItems (List.map Json.str ys) ++ ']' :: rest))) := by
      simp [renderItems, renderJson, List.append_assoc]
    rw [htext]
    exact parseItems_step f1 (Json.str x) _ _ _ rest
      (parseVal_render_str f1 (by omega) x _)
      (ih f1 y rest (by simp only [List.length_cons] at h; omega))

theorem parseVal_render_arr (xs : List String) (fuel : Nat) (rest : List Char)
    (h : 2 * xs.length + 4 ≤ fuel) :
    parseVal fuel (renderJson (Json.arr (xs.map Json.str)) ++ rest) =
      some (Json.arr (xs.map Json.str), rest) := by
  obtain ⟨f, rfl⟩ : ∃ f, fuel = Nat.succ f := ⟨fuel - 1, by omega⟩
  cases xs with
  | nil => simp [renderJson, parseVal, skipWs, isJsonWs]
  | cons x xs =>
    have hitems := parseItems_render xs f x rest (by simp only [List.length_cons] at h; omega)
    simp only [renderString, List.cons_append, List.append_assoc] at hitems
    simp [renderJson, renderString, parseVal, skipWs, isJsonWs, hitems]

theorem parseMembers_cons (fuel : Nat) (h : 1 ≤ fuel) (k : String) (v : Json)
    (Y cs : List Char) (ms : List (String × Json)) (rest : List Char)
    (hval : parseVal (fuel - 1) Y = some (v, ',' :: cs))
    (hrec : parseMembers (fuel - 1) cs = some (ms, rest)) :
    parseMembers fuel (renderString k ++ ':' :: Y) = some ((k, v) :: ms, rest) := by
  obtain ⟨f, rfl⟩ : ∃ f, fuel = Nat.succ f := ⟨fuel - 1, by omega⟩
  simp only [Nat.succ_sub_one] at hval hrec
  simp [parseMembers, renderString, skipWs, isJsonWs, parseStringBody_escapeList, hval, hrec,
    stringMk_data]

theorem parseMembers_last (fuel : Nat) (h : 1 ≤ fuel) (k : String) (v : Json)
    (Y rest : List Char)
    (hval : parseVal (fuel - 1) Y = some (v, '\x7d' :: rest)) :
    parseMembers fuel (renderString k ++ ':' :: Y) = some ([(k, v)], rest) := by
  obtain ⟨f, rfl⟩ : ∃ f, fuel = Nat.succ f := ⟨fuel - 1, by omega⟩
  simp only [Nat.succ_sub_one] at hval
  simp [parseMembers, renderString, skipWs, isJsonWs, parseStringBody_escapeList, hval,
    stringMk_data]

theorem parseVal_render_obj (fuel : Nat) (h : 1 ≤ fuel) (k : String) (v : Json)
    (ms : List (String × Json)) (tail : List Char)
    (hmem : parseMembers (fuel - 1)
        (renderString k ++ ':' :: (renderJson v ++ (renderMembers ms ++ '\x7d' :: tail))) =
      some ((k, v) :: ms, tail)) :
    parseVal fuel (renderJson (Json.obj ((k, v) :: ms)) ++ tail) =
      some (Json.obj ((k, v) :: ms), tail) := by
  obtain ⟨f, rfl⟩ : ∃ f, fuel = Nat.succ f := ⟨fuel - 1, by omega⟩
  simp only [Nat.succ_sub_one] at hmem
  simp only [renderString, List.cons_append, List.append_assoc] at hmem
  simp [renderJson, renderString, parseVal, skipWs, isJsonWs, List.append_assoc, hmem]

theorem renderItems_length (xs : List Json) : xs.length ≤ (renderItems xs).length := by
  induction xs with
  | nil => simp [renderItems]
  | cons x xs ih => simp only [renderItems, List.length_cons, List.length_append]; omega

theorem renderArr_length (xs : List String) :
    xs.length + 2 ≤ (renderJson (Json.arr (xs.map Json.str))).length := by
  cases xs with
  | nil => simp [renderJson]
  | cons x xs =>
    have h := renderItems_length (xs.map Json.str)
    simp only [List.map_cons, renderJson, renderString, List.length_cons, List.length_append,
      List.length_map] at h ⊢
    omega

theorem encode_len_bound (mt : MsgTypes) (da : Option (List String)) (d : Option String) :
    (da.getD []).length + 2 ≤
      (renderJson (WebSocketMessage.toJson ⟨mt, da, d⟩)).length := by
  cases da with
  | none =>
    simp [WebSocketMessage.toJson, renderJson, renderMembers, List.length_append]
    omega
  | some xs =>
    have h := renderArr_length xs
    simp only [WebSocketMessage.toJson, jsonOfDataArray, renderJson, renderMembers,
      Option.getD_some, List.length_cons, List.length_append, List.append_assoc] at h ⊢
    omega

theorem parse_encode (m : WebSocketMessage) :
    Json.parse (WebSocketMessage.encode m) = some (WebSocketMessage.toJson m) := by
  obtain ⟨mt, da, d⟩ := m
  obtain ⟨tag, htag⟩ : ∃ t, MsgTypes.toJson mt = Json.str t := by
    cases mt <;> exact ⟨_, rfl⟩
  set n := (renderJson (WebSocketMessage.toJson ⟨mt, da, d⟩)).length with hn
  have hbound := encode_len_bound mt da d
  rw [← hn] at hbound
  have hd : parseVal (2 * n) (renderJson (jsonOfData d) ++ ('\x7d' :: ([] : List Char))) = some (jsonOfData d, '\x7d' :: []) := by
    cases d with
    | none => exact parseVal_render_null (2 * n) (by omega) _
    | some s => exact parseVal_render_str (2 * n) (by omega) s _
  have hm3 := parseMembers_last (2 * n + 1) (by omega) "data" _ _ _ hd
  have ha : parseVal (2 * n + 1) (renderJson (jsonOfDataArray da) ++ (',' :: (renderString "data" ++ ':' :: (renderJson (jsonOfData d) ++ ('\x7d' :: ([] : List Char)))))) =
      some (jsonOfDataArray da, ',' :: (renderString "data" ++ ':' :: (renderJson (jsonOfData d) ++ ('\x7d' :: ([] : List Char))))) := by
    cases da with
    | none => exact parseVal_render_null _ (by omega) _
    | some xs =>
      refine parseVal_render_arr xs _ _ ?_
      simp only [Option.getD_some] at hbound
      omega
  have hm2 := parseMembers_cons (2 * n + 2) (by omega) "dataArray" _ _ _ _ _ ha hm3
  have ht := parseVal_render_str (2 * n + 2) (by omega) tag
    (',' :: (renderString "dataArray" ++ ':' :: (renderJson (jsonOfDataArray da) ++ (',' :: (renderString "data" ++ ':' :: (renderJson (jsonOfData d) ++ ('\x7d' :: ([] : List Char))))))))
  have hm1 := parseMembers_cons (2 * n + 3) (by omega) "messageType" _ _ _ _ _ ht hm2
  have hjson : WebSocketMessage.toJson ⟨mt, da, d⟩ =
      Json.obj [("messageType", Json.str tag), ("dataArray", jsonOfDataArray da),
        ("data", jsonOfData d)] := by
    simp [WebSocketMessage.toJson, htag]
  have htop : parseVal (2 * n + 4)
      (renderJson (WebSocketMessage.toJson ⟨mt, da, d⟩) ++ ([] : List Char)) =
      some (WebSocketMessage.toJson ⟨mt, da, d⟩, []) := by
    rw [hjson]
    refine parseVal_render_obj (2 * n + 4) (by omega) "messageType" (Json.str tag) _ [] ?_
    simpa [renderMembers, renderJson, List.append_assoc] using hm1
  have htop2 : parseVal (2 * n + 4)
      (renderJson (WebSocketMessage.toJson ⟨mt, da, d⟩)) =
      some (WebSocketMessage.toJson ⟨mt, da, d⟩, []) := by
    simpa using htop
  have hfinal : parseVal (2 * (WebSocketMessage.encode ⟨mt, da, d⟩).length + 4)
      ((WebSocketMessage.encode ⟨mt, da, d⟩).data) =
      some (WebSocketMessage.toJson ⟨mt, da, d⟩, []) := htop2
  simp [Json.parse, hfinal, skipWs]

/-- Claim C1 (code bug): the claim says a text frame that is not valid
JSON, or that lacks a recognized messageType, fails with a
MalformedEnvelope error surfaced to the caller, leaves state unchanged
and raises no unhandled fault.  The code instead calls
serde_json::from_str(&s).unwrap(): on the non-JSON frame "not-json" and
on the valid-JSON untagged frame \x7b"x":1\x7d the decode fails and the
unwrap panics (modelled by the update result none), crashing the
client. -/
theorem update_panics_on_malformed_frame :
    decodeFrame "not-json" = none ∧
    update ⟨[], []⟩ none (Msg.HandleMsg "not-json") = none ∧
    decodeFrame "\x7b\"x\":1\x7d" = none ∧
    update ⟨[], []⟩ none (Msg.HandleMsg "\x7b\"x\":1\x7d") = none :=
  ⟨by decide, by decide, by decide, by decide⟩

/-- Claim C2 (code bug): the claim says a message envelope whose data
string is not valid \x7bfrom, message\x7d JSON fails with an observed
MalformedChatPayload error and leaves the log and roster unchanged.
The code instead unwraps the nested serde_json decode: on the envelope
frame \x7b"messageType":"message","data":"not-json"\x7d the envelope
itself decodes fine, the nested decode of "not-json" fails, and the
unwrap panics (modelled by none), crashing the client. -/
theorem update_panics_on_malformed_chat_payload :
    decodeFrame "\x7b\"messageType\":\"message\",\"data\":\"not-json\"\x7d" =
      some ⟨MsgTypes.Message, none, some "not-json"⟩ ∧
    decodeMessageData "not-json" = none ∧
    update ⟨[], []⟩ none
      (Msg.HandleMsg "\x7b\"messageType\":\"message\",\"data\":\"not-json\"\x7d") = none :=
  ⟨by decide, by decide, by decide⟩

/-- Claim C3, counterexample: the claim says a submission whose text is
empty or whitespace-only after trimming produces no outbound send.  On
the whitespace-only input value "   " the SubmitMessage arm attempts a
send (the input element is not inside a form, so its required attribute
never gates the button's onclick, and the handler neither trims nor
tests the value). -/
theorem submit_whitespace_sends_counterexample :
    ∃ r, update ⟨[], []⟩ (some "   ") Msg.SubmitMessage = some r ∧ r.sent ≠ [] :=
  ⟨⟨⟨[], []⟩, false, [⟨MsgTypes.Message, none, some "   "⟩], true⟩, rfl, by decide⟩

/-- Claim C3, amended: every submission with the input element mounted
attempts exactly one outbound message envelope whose payload is the
raw, untrimmed input value — also when that value is empty or
whitespace-only — and then clears the input; no send happens only when
the input element is absent. -/
theorem submit_sends_raw_input (st : Chat) (v : String) :
    update st (some v) Msg.SubmitMessage =
      some ⟨st, false, [⟨MsgTypes.Message, none, some v⟩], true⟩ ∧
    update st none Msg.SubmitMessage = some ⟨st, false, [], false⟩ :=
  ⟨rfl, rfl⟩

/-- Claim C4 (confirmed): a decoded Users envelope replaces the roster
wholesale with one UserProfile per element of the payload list (empty
when the list is absent), in list order, each avatar equal to
deterministicAvatarUrl of the name, leaving the log unchanged; no prior
roster entry survives. -/
theorem users_envelope_replaces_roster (st : Chat) (m : WebSocketMessage)
    (h : m.message_type = MsgTypes.Users) :
    ∃ st2, handleEnvelope st m = some (st2, true) ∧
      st2.users.map UserProfile.name = m.data_array.getD [] ∧
      st2.users.map UserProfile.avatar = (m.data_array.getD []).map deterministicAvatarUrl ∧
      st2.users.length = (m.data_array.getD []).length ∧
      st2.messages = st.messages := by
  refine ⟨{ st with users := (m.data_array.getD []).map (fun u => ⟨u, deterministicAvatarUrl u⟩) }, ?_, ?_, ?_, ?_, rfl⟩
  · simp [handleEnvelope, h]
  · simp [List.map_map, Function.comp_def]
  · simp [List.map_map, Function.comp_def]
  · simp

/-- Witness for claim C4, at the spec's example: a prior roster of
three users followed by a Users envelope listing only carol yields a
roster of exactly one entry. -/
theorem users_envelope_replaces_roster_witness :
    (⟨MsgTypes.Users, some ["carol"], none⟩ : WebSocketMessage).message_type = MsgTypes.Users ∧
    ∃ st2, handleEnvelope ⟨[⟨"alice", "a1"⟩, ⟨"bob", "a2"⟩, ⟨"dave", "a3"⟩], []⟩
        ⟨MsgTypes.Users, some ["carol"], none⟩ = some (st2, true) ∧
      st2.users.map UserProfile.name = ["carol"] ∧
      st2.users.map UserProfile.avatar = ["carol"].map deterministicAvatarUrl ∧
      st2.users.length = (["carol"] : List String).length ∧
      st2.messages = [] :=
  ⟨rfl, users_envelope_replaces_roster _ _ rfl⟩

/-- Claim C5 (confirmed): a decoded message envelope whose data decodes
to a \x7bfrom, message\x7d payload appends exactly that one entry at
the end of the log, keeps every prior entry in place, and leaves the
roster unchanged. -/
theorem message_envelope_appends_log (st : Chat) (m : WebSocketMessage) (d : String)
    (md : MessageData) (h1 : m.message_type = MsgTypes.Message) (h2 : m.data = some d)
    (h3 : decodeMessageData d = some md) :
    handleEnvelope st m = some (⟨st.users, st.messages ++ [md]⟩, true) := by
  obtain ⟨us, ms⟩ := st
  simp [handleEnvelope, h1, h2, h3]

/-- Witness for claim C5, at the spec's example envelope carrying the
nested payload from bob with body hi, on a nonempty prior state. -/
theorem message_envelope_appends_log_witness :
    (⟨MsgTypes.Message, none, some "\x7b\"from\":\"bob\",\"message\":\"hi\"\x7d"⟩ :
      WebSocketMessage).message_type = MsgTypes.Message ∧
    (⟨MsgTypes.Message, none, some "\x7b\"from\":\"bob\",\"message\":\"hi\"\x7d"⟩ :
      WebSocketMessage).data = some "\x7b\"from\":\"bob\",\"message\":\"hi\"\x7d" ∧
    decodeMessageData "\x7b\"from\":\"bob\",\"message\":\"hi\"\x7d" = some ⟨"bob", "hi"⟩ ∧
    handleEnvelope ⟨[⟨"u", "a"⟩], [⟨"ann", "yo"⟩]⟩
      ⟨MsgTypes.Message, none, some "\x7b\"from\":\"bob\",\"message\":\"hi\"\x7d"⟩ =
      some (⟨[⟨"u", "a"⟩], [⟨"ann", "yo"⟩, ⟨"bob", "hi"⟩]⟩, true) :=
  ⟨rfl, rfl, by decide, message_envelope_appends_log _ _ _ _ rfl rfl (by decide)⟩

/-- Claim C6 (confirmed): on creation the component hands exactly one
encoded envelope to the transport — a Register envelope whose payload
is the local username — and is constructed in the empty initial state
whether or not the send succeeded (the try_send result is only
logged). -/
theorem create_sends_single_register (username : String) (sendOk : Bool) :
    (create username sendOk).2 = [⟨MsgTypes.Register, none, some username⟩] ∧
    (create username sendOk).1 = ⟨[], []⟩ ∧
    create username sendOk = create username true :=
  ⟨rfl, rfl, rfl⟩

/-- Claim C7 (confirmed): for every well-formed envelope value, decoding
the text produced by encoding it yields the envelope back:
decodeFrame (encode e) = some e, where encode models
serde_json::to_string (serialization to text, escaping included) and
decodeFrame models serde_json::from_str (text parsing plus the derived
envelope decoder). -/
theorem decode_encode_roundtrip (m : WebSocketMessage) (h : wellFormed m = true) :
    decodeFrame (WebSocketMessage.encode m) = some m := by
  simp [decodeFrame, parse_encode, fromJson_toJson]

/-- Witness for claim C7, at a concrete register envelope. -/
theorem decode_encode_roundtrip_witness :
    wellFormed ⟨MsgTypes.Register, none, some "alice"⟩ = true ∧
    decodeFrame (WebSocketMessage.encode ⟨MsgTypes.Register, none, some "alice"⟩) =
      some ⟨MsgTypes.Register, none, some "alice"⟩ :=
  ⟨by decide, decode_encode_roundtrip _ (by decide)⟩

/-- Claim C8, counterexample: the claim says the roster never holds two
entries with the same name, for every possible Users payload list
including lists with repeated strings.  Processing the payload list
with "a" repeated yields a roster whose two entries share the name
"a". -/
theorem roster_duplicate_names_counterexample :
    ¬ ∀ st2 b, handleEnvelope ⟨[], []⟩ ⟨MsgTypes.Users, some ["a", "a"], none⟩ =
        some (st2, b) → (st2.users.map UserProfile.name).Nodup := by
  intro h
  exact absurd (h _ _ rfl) (by decide)

/-- Claim C8, amended: the reducer copies the payload list into the
roster with no deduplication, so roster names are exactly the payload
list; they are pairwise distinct exactly when the incoming list has no
repeated strings. -/
theorem roster_names_copy_payload_list (st : Chat) (m : WebSocketMessage)
    (h1 : m.message_type = MsgTypes.Users) (h2 : (m.data_array.getD []).Nodup) :
    ∀ st2 b, handleEnvelope st m = some (st2, b) →
      (st2.users.map UserProfile.name).Nodup := by
  intro st2 b h
  simp [handleEnvelope, h1] at h
  obtain ⟨hst, hb⟩ := h
  subst hst
  simpa [List.map_map, Function.comp_def] using h2

/-- Witness for the amended claim C8, at the duplicate-free payload
list with alice and bob. -/
theorem roster_names_copy_payload_list_witness :
    (⟨MsgTypes.Users, some ["alice", "bob"], none⟩ : WebSocketMessage).message_type =
      MsgTypes.Users ∧
    ((⟨MsgTypes.Users, some ["alice", "bob"], none⟩ :
      WebSocketMessage).data_array.getD []).Nodup ∧
    ∀ st2 b, handleEnvelope ⟨[], []⟩ ⟨MsgTypes.Users, some ["alice", "bob"], none⟩ =
        some (st2, b) → (st2.users.map UserProfile.name).Nodup :=
  ⟨rfl, by decide, roster_names_copy_payload_list _ _ rfl (by decide)⟩

/-- Claim C9 (confirmed): isImagePayload holds exactly when the message
body ends with the case-sensitive suffix ".gif"; in particular it
accepts "party.gif" and rejects "party.gif.txt" and "PARTY.GIF". -/
theorem isImagePayload_gif_suffix :
    (∀ m : MessageData, isImagePayload m = true ↔
      ∃ pre : List Char, m.message.data = pre ++ ".gif".data) ∧
    isImagePayload ⟨"x", "party.gif"⟩ = true ∧
    isImagePayload ⟨"x", "party.gif.txt"⟩ = false ∧
    isImagePayload ⟨"x", "PARTY.GIF"⟩ = false := by
  refine ⟨?_, by decide, by decide, by decide⟩
  intro m
  rw [isImagePayload, List.isSuffixOf_iff_suffix]
  constructor
  · rintro ⟨t, ht⟩
    exact ⟨t, ht.symm⟩
  · rintro ⟨pre, hp⟩
    exact ⟨pre, hp.symm⟩

/-- Claim C10 (confirmed): on a decoded message envelope whose data
field is absent, the reducer is not total — it unwraps the missing
payload and aborts with a panic (modelled by none) instead of returning
a typed error or signalling no state change. -/
theorem message_data_none_panics (st : Chat) (m : WebSocketMessage)
    (h1 : m.message_type = MsgTypes.Message) (h2 : m.data = none) :
    handleEnvelope st m = none := by
  simp [handleEnvelope, h1, h2]

/-- Witness for claim C10, at the message envelope with no data. -/
theorem message_data_none_panics_witness :
    (⟨MsgTypes.Message, none, none⟩ : WebSocketMessage).message_type = MsgTypes.Message ∧
    (⟨MsgTypes.Message, none, none⟩ : WebSocketMessage).data = none ∧
    handleEnvelope ⟨[], []⟩ ⟨MsgTypes.Message, none, none⟩ = none :=
  ⟨rfl, rfl, message_data_none_panics _ _ rfl rfl⟩

end YewChat
